import Mathlib

/-!
Verification of the versioned MVCC record node (`dbtuple`, src/tuple.h).

The development shallowly embeds the data model and the operations of the
tuple: the bit-packed 32-bit header word, the node layout (header prefix,
optional chain pointer, inline payload buffer), the size-class allocation
helpers `alloc_first` and `alloc`, the reader walk `record_at` /
`stable_read`, and the writer decision procedure `write_record_at`.
Machine integers are modelled as `Nat` with explicit masking where the
C++ code wraps; chains of nodes are modelled as a recursive inductive
with an optional `next` field (null pointer = `none`); the sequential
(single-thread) semantics of each operation is embedded, so the
lock-word spin loops collapse to their post-state.
-/

set_option autoImplicit false

namespace Silo

/-! ### Header-word constants (src/tuple.h lines 47-67) -/

def MIN_TID : Nat := 0

def MAX_TID : Nat := 2 ^ 64 - 1

def HDR_LOCKED_MASK : Nat := 0x1

def HDR_TYPE_SHIFT : Nat := 1

def HDR_TYPE_MASK : Nat := 0x1 <<< HDR_TYPE_SHIFT

def HDR_DELETING_SHIFT : Nat := 2

def HDR_DELETING_MASK : Nat := 0x1 <<< HDR_DELETING_SHIFT

def HDR_ENQUEUED_SHIFT : Nat := 3

def HDR_ENQUEUED_MASK : Nat := 0x1 <<< HDR_ENQUEUED_SHIFT

def HDR_LATEST_SHIFT : Nat := 4

def HDR_LATEST_MASK : Nat := 0x1 <<< HDR_LATEST_SHIFT

def HDR_VERSION_SHIFT : Nat := 5

/-- Value of `((version_t)-1) << HDR_VERSION_SHIFT` at 32-bit width. -/
def HDR_VERSION_MASK : Nat := 0xFFFFFFE0

/-! ### Static header predicates (src/tuple.h lines 182-303) -/

def IsLocked (v : Nat) : Bool := v &&& HDR_LOCKED_MASK != 0

def IsBigType (v : Nat) : Bool := v &&& HDR_TYPE_MASK != 0

def IsDeleting (v : Nat) : Bool := v &&& HDR_DELETING_MASK != 0

def IsEnqueued (v : Nat) : Bool := v &&& HDR_ENQUEUED_MASK != 0

def IsLatest (v : Nat) : Bool := v &&& HDR_LATEST_MASK != 0

def Version (v : Nat) : Nat := (v &&& HDR_VERSION_MASK) >>> HDR_VERSION_SHIFT

/-- Effect of a successful `lock()` CAS on the header word (line 196):
the observed unlocked word with the lock bit set. -/
def lockWord (v : Nat) : Nat := v ||| HDR_LOCKED_MASK

/-- Effect of `unlock()` on the header word (lines 211-223):
`v &= ~HDR_VERSION_MASK` is `v &&& 0x1F` at 32-bit width, and
`v &= ~HDR_LOCKED_MASK` is `v &&& 0xFFFFFFFE`. -/
def unlockWord (v : Nat) : Nat :=
  let n := Version v
  let v1 := v &&& 0x1F
  let v2 := v1 ||| (((n + 1) <<< HDR_VERSION_SHIFT) &&& HDR_VERSION_MASK)
  v2 &&& 0xFFFFFFFE

/-! ### Node layout

One node = header word, TID, payload length, buffer capacity, the inline
buffer bytes, and the `next` pointer of the `big` layout (the `small`
layout carries no pointer slot; its model field is always `none` and is
never consulted, matching `get_next`). -/

inductive dbtuple : Type where
  | mk (hdr : Nat) (version : Nat) (size : Nat) (alloc_size : Nat)
       (buf : List Nat) (next : Option dbtuple) : dbtuple

namespace dbtuple

def hdr : dbtuple → Nat
  | .mk h _ _ _ _ _ => h

def version : dbtuple → Nat
  | .mk _ v _ _ _ _ => v

def size : dbtuple → Nat
  | .mk _ _ s _ _ _ => s

def alloc_size : dbtuple → Nat
  | .mk _ _ _ a _ _ => a

def buf : dbtuple → List Nat
  | .mk _ _ _ _ b _ => b

def next : dbtuple → Option dbtuple
  | .mk _ _ _ _ _ nx => nx

def withHdr : dbtuple → Nat → dbtuple
  | .mk _ v s a b nx, h => .mk h v s a b nx

def is_locked (n : dbtuple) : Bool := IsLocked n.hdr

def is_big_type (n : dbtuple) : Bool := IsBigType n.hdr

def is_small_type (n : dbtuple) : Bool := !n.is_big_type

def is_deleting (n : dbtuple) : Bool := IsDeleting n.hdr

def is_enqueued (n : dbtuple) : Bool := IsEnqueued n.hdr

def is_latest (n : dbtuple) : Bool := IsLatest n.hdr

/-- Sequential effect of `lock()` (lines 188-209): set the lock bit. -/
def lock (n : dbtuple) : dbtuple := n.withHdr (lockWord n.hdr)

/-- Sequential effect of `unlock()` (lines 211-223). -/
def unlock (n : dbtuple) : dbtuple := n.withHdr (unlockWord n.hdr)

/-- Method `set_latest(bool)` (lines 289-297); `~HDR_LATEST_MASK` is
`0xFFFFFFEF` at 32-bit width. -/
def set_latest (n : dbtuple) (latest : Bool) : dbtuple :=
  n.withHdr (if latest then n.hdr ||| HDR_LATEST_MASK else n.hdr &&& 0xFFFFFFEF)

/-- Method `get_next()` (lines 355-361): null for the small layout. -/
def get_next (n : dbtuple) : Option dbtuple :=
  if IsBigType n.hdr then n.next else none

/-- Method `set_next(dbtuple *)` (lines 385-390); precondition big type. -/
def set_next : dbtuple → Option dbtuple → dbtuple
  | .mk h v s a b _, nx => .mk h v s a b nx

/-- Method `is_not_behind(t)` (lines 416-420). -/
def is_not_behind (n : dbtuple) (t : Nat) : Bool := n.version ≤ t

end dbtuple

/-! ### Allocation (src/tuple.h lines 105-145, 617-655)

`sizeof(dbtuple)` of the PACKED struct on amd64: 4 (hdr) + 8 (version)
+ 2 (size) + 2 (alloc_size) = 16 bytes; a pointer is 8 bytes. -/

def sizeof_dbtuple : Nat := 16

def sizeof_ptr : Nat := 8

def node_size_max : Nat := 65535

/-- Modelled from the spec: `util::round_up<size_t, 4>` (util.h is not in
src/); the spec states allocation sizes are "rounded up to a
power-of-two-based class (base exponent = 4, i.e. multiples of 16
bytes)". -/
def round_up (x : Nat) : Nat := (x + 15) / 16 * 16

/-- Effect of `NDB_MEMCPY(dest, r, sz)` on a buffer: the first `sz` bytes
come from `r`, the rest of the buffer is unchanged. -/
def memcpy (b r : List Nat) (sz : Nat) : List Nat := r.take sz ++ b.drop sz

/-- Bytes of a freshly `malloc`ed buffer of `cap` bytes whose first `sz`
bytes are copied from `r` (constructor lines 131-145); the uninitialized
tail is modelled as zeros. -/
def freshBuf (r : List Nat) (sz cap : Nat) : List Nat :=
  r.take sz ++ List.replicate (cap - sz) 0

/-- Total block size chosen by `alloc_first` (lines 625-631). -/
def alloc_first_block (do_big_type : Bool) (alloc_sz : Nat) : Nat :=
  let big_type_contrib_sz := if do_big_type then sizeof_ptr else 0
  min (round_up (sizeof_dbtuple + big_type_contrib_sz + alloc_sz))
      (node_size_max + sizeof_dbtuple + big_type_contrib_sz)

/-- Static `alloc_first(do_big_type, alloc_sz)` (lines 621-638) composed
with the first constructor (lines 113-128): an empty latest head with
`version = MIN_TID`, `size = 0`, null `next`, and the whole rounded block
as capacity. -/
def alloc_first (do_big_type : Bool) (alloc_sz : Nat) : dbtuple :=
  let big_type_contrib_sz := if do_big_type then sizeof_ptr else 0
  let actual_alloc_sz := alloc_first_block do_big_type alloc_sz
  dbtuple.mk ((if do_big_type then HDR_TYPE_MASK else 0) ||| HDR_LATEST_MASK)
    MIN_TID 0 (actual_alloc_sz - sizeof_dbtuple - big_type_contrib_sz)
    (List.replicate (actual_alloc_sz - sizeof_dbtuple - big_type_contrib_sz) 0) none

/-- Total block size chosen by `alloc` (lines 643-649). -/
def alloc_block (sz : Nat) : Nat :=
  min (round_up (sizeof_dbtuple + sizeof_ptr + sz))
      (node_size_max + sizeof_dbtuple + sizeof_ptr)

/-- Static `alloc(version, value, sz, next, set_latest)` (lines 640-655)
composed with the second constructor (lines 131-145): always the big
layout, copying `sz` bytes of `value`, capacity the whole rounded block
minus prefix and pointer slot. -/
def alloc (version : Nat) (value : List Nat) (sz : Nat)
    (next : Option dbtuple) (set_latest : Bool) : dbtuple :=
  let cap := alloc_block sz - sizeof_dbtuple - sizeof_ptr
  dbtuple.mk (HDR_TYPE_MASK ||| (if set_latest then HDR_LATEST_MASK else 0))
    version sz cap (freshBuf value sz cap) next

/-! ### Reader walk (src/tuple.h lines 434-507)

Sequential semantics: `stable_version()` returns the current header,
`check_version` succeeds, so the retry loop collapses. A `none` result
is the `return false` of `record_at`. -/

def record_at : dbtuple → Nat → Nat → Bool → Option (Nat × List Nat)
  | .mk hdr version size _ buf none, t, max_len, require_latest =>
    if version ≤ t then
      if require_latest && !(IsLatest hdr) then none
      else some (version, buf.take (min size max_len))
    else some (MIN_TID, [])
  | .mk hdr version size _ buf (some p), t, max_len, require_latest =>
    if version ≤ t then
      if require_latest && !(IsLatest hdr) then none
      else some (version, buf.take (min size max_len))
    else if IsBigType hdr then record_at p t max_len false
    else some (MIN_TID, [])

/-- Entry point `stable_read` (lines 501-507): requires latest at the
head; the code asserts `INVARIANT(max_len > 0)`. -/
def stable_read (n : dbtuple) (t : Nat) (max_len : Nat) : Option (Nat × List Nat) :=
  record_at n t max_len true

/-- Asserted precondition of `stable_read` (line 505):
`INVARIANT(max_len > 0)`. -/
def stable_read_pre (max_len : Nat) : Prop := 0 < max_len

/-! ### Writer decision procedure (src/tuple.h lines 561-615)

The transaction's `can_overwrite_record_tid` callback is a parameter.
The result models `write_record_ret` plus the final state of `this`:
`(this, spilled, replacement)`. A replacement node's `next` holds the
final (latest-cleared) state of `this`, matching the pointer graph at
return. -/

def write_record_at (can_overwrite_record_tid : Nat → Nat → Bool)
    (n : dbtuple) (t : Nat) (r : List Nat) (sz : Nat) :
    dbtuple × Bool × Option dbtuple :=
  if can_overwrite_record_tid n.version t then
    if sz ≤ n.alloc_size then
      (dbtuple.mk n.hdr t sz n.alloc_size (memcpy n.buf r sz) n.next, false, none)
    else
      let self := n.set_latest false
      (self, false, some (alloc t r sz (some self) true))
  else
    if IsBigType n.hdr ∧ sz ≤ n.alloc_size then
      let spill := alloc n.version n.buf n.size n.next false
      (dbtuple.mk n.hdr t sz n.alloc_size (memcpy n.buf r sz) (some spill), true, none)
    else
      let self := n.set_latest false
      (self, true, some (alloc t r sz (some self) true))

/-! ### Chains -/

/-- Nodes reachable from a node along `get_next`, the node included. -/
def chainNodes : dbtuple → List dbtuple
  | .mk hdr version size alloc_size buf none =>
    [dbtuple.mk hdr version size alloc_size buf none]
  | .mk hdr version size alloc_size buf (some p) =>
    dbtuple.mk hdr version size alloc_size buf (some p) ::
      (if IsBigType hdr then chainNodes p else [])

/-- Well-formed layout along a chain: payload length within capacity and
the buffer physically `alloc_size` bytes long (invariant 7 plus the
flexible-array layout). -/
def wfChain (n : dbtuple) : Prop :=
  ∀ m ∈ chainNodes n, m.size ≤ m.alloc_size ∧ m.buf.length = m.alloc_size


/-! ### Bit-level facts about the header word -/

theorem land_two_pow_sub_one (x n : Nat) : x &&& (2 ^ n - 1) = x % 2 ^ n := by
  apply Nat.eq_of_testBit_eq
  intro i
  simp [Nat.testBit_land, Nat.testBit_two_pow_sub_one, Nat.testBit_mod_two_pow,
    Bool.and_comm]

theorem land_shiftLeft_shiftRight (v m k : Nat) :
    (v &&& (m <<< k)) >>> k = (v >>> k) &&& m := by
  apply Nat.eq_of_testBit_eq
  intro i
  simp [Nat.testBit_shiftRight, Nat.testBit_land, Nat.testBit_shiftLeft,
    Nat.le_add_right, Nat.add_sub_cancel_left]

theorem hdr_version_mask_eq : HDR_VERSION_MASK = (2 ^ 27 - 1) <<< 5 := by decide

theorem Version_eq (v : Nat) : Version v = v / 2 ^ 5 % 2 ^ 27 := by
  rw [Version, HDR_VERSION_SHIFT, hdr_version_mask_eq, land_shiftLeft_shiftRight,
    land_two_pow_sub_one, Nat.shiftRight_eq_div_pow]

theorem Version_lt (v : Nat) : Version v < 2 ^ 27 := by
  rw [Version_eq]
  exact Nat.mod_lt _ (by norm_num)

theorem testBit_vmask (j : Nat) :
    Nat.testBit HDR_VERSION_MASK j = decide (5 ≤ j ∧ j < 32) := by
  rw [hdr_version_mask_eq, Nat.testBit_shiftLeft, Nat.testBit_two_pow_sub_one]
  by_cases h : 5 ≤ j
  · have : j - 5 < 27 ↔ j < 32 := by omega
    simp [h, this]
  · simp [h]

theorem testBit_clear_locked (j : Nat) :
    Nat.testBit 0xFFFFFFFE j = decide (1 ≤ j ∧ j < 32) := by
  rw [show (0xFFFFFFFE : Nat) = (2 ^ 31 - 1) <<< 1 from by decide,
    Nat.testBit_shiftLeft, Nat.testBit_two_pow_sub_one]
  by_cases h : 1 ≤ j
  · have : j - 1 < 31 ↔ j < 32 := by omega
    simp [h, this]
  · simp [h]

theorem testBit_low_mask (j : Nat) : Nat.testBit 0x1F j = decide (j < 5) := by
  rw [show (0x1F : Nat) = 2 ^ 5 - 1 from by decide, Nat.testBit_two_pow_sub_one]

theorem Version_unlockWord (v : Nat) :
    Version (unlockWord v) = (Version v + 1) % 2 ^ 27 := by
  apply Nat.eq_of_testBit_eq
  intro i
  rw [Version, HDR_VERSION_SHIFT, Nat.testBit_shiftRight, Nat.testBit_land,
    testBit_vmask, Nat.testBit_mod_two_pow]
  rw [unlockWord]
  simp only [HDR_VERSION_SHIFT, Nat.testBit_land, Nat.testBit_lor,
    Nat.testBit_shiftLeft, testBit_vmask, testBit_clear_locked, testBit_low_mask]
  by_cases h : i < 27
  · have h5 : ¬ (5 + i < 5) := by omega
    have hge : 5 ≤ 5 + i := by omega
    have hlt : 5 + i < 32 := by omega
    have hs : 5 + i - 5 = i := by omega
    have h1 : 1 ≤ 5 + i := by omega
    simp [h, h5, hge, hlt, hs, h1]
  · have hlt : ¬ (5 + i < 32) := by omega
    simp [h, hlt]

theorem Version_lockWord (v : Nat) : Version (lockWord v) = Version v := by
  apply Nat.eq_of_testBit_eq
  intro i
  rw [Version, Version, HDR_VERSION_SHIFT, Nat.testBit_shiftRight,
    Nat.testBit_shiftRight, Nat.testBit_land, Nat.testBit_land, testBit_vmask]
  rw [lockWord]
  simp only [Nat.testBit_lor]
  rw [show HDR_LOCKED_MASK = 2 ^ 1 - 1 from by decide, Nat.testBit_two_pow_sub_one]
  by_cases h : 5 ≤ 5 + i ∧ 5 + i < 32
  · simp [h]
  · simp [h]

theorem testBit_unlockWord_lo (v : Nat) (i : Nat) (h1 : 1 ≤ i) (h5 : i < 5) :
    (unlockWord v).testBit i = v.testBit i := by
  rw [unlockWord]
  simp only [HDR_VERSION_SHIFT, Nat.testBit_land, Nat.testBit_lor,
    Nat.testBit_shiftLeft, testBit_vmask, testBit_clear_locked, testBit_low_mask]
  have h5' : ¬ (5 ≤ i) := by omega
  have h32 : i < 32 := by omega
  simp [h1, h5, h5', h32]

theorem testBit_unlockWord_zero (v : Nat) : (unlockWord v).testBit 0 = false := by
  rw [unlockWord]
  simp [Nat.testBit_land, testBit_clear_locked]

theorem land_two_pow_bne_zero (v i : Nat) : ((v &&& 2 ^ i) != 0) = v.testBit i := by
  rw [Nat.and_two_pow]
  have h2 : (2 : Nat) ^ i ≠ 0 := (pow_pos (by norm_num) i).ne'
  cases h : v.testBit i <;> simp [h, h2]

theorem IsLocked_testBit (v : Nat) : IsLocked v = v.testBit 0 := by
  rw [IsLocked, show HDR_LOCKED_MASK = 2 ^ 0 from rfl, land_two_pow_bne_zero]

theorem IsBigType_testBit (v : Nat) : IsBigType v = v.testBit 1 := by
  rw [IsBigType, show HDR_TYPE_MASK = 2 ^ 1 from rfl, land_two_pow_bne_zero]

theorem IsDeleting_testBit (v : Nat) : IsDeleting v = v.testBit 2 := by
  rw [IsDeleting, show HDR_DELETING_MASK = 2 ^ 2 from rfl, land_two_pow_bne_zero]

theorem IsEnqueued_testBit (v : Nat) : IsEnqueued v = v.testBit 3 := by
  rw [IsEnqueued, show HDR_ENQUEUED_MASK = 2 ^ 3 from rfl, land_two_pow_bne_zero]

theorem IsLatest_testBit (v : Nat) : IsLatest v = v.testBit 4 := by
  rw [IsLatest, show HDR_LATEST_MASK = 2 ^ 4 from rfl, land_two_pow_bne_zero]


/-! ### Node-level helper lemmas -/

theorem IsLatest_clear_mask (h : Nat) : IsLatest (h &&& 0xFFFFFFEF) = false := by
  rw [IsLatest_testBit]
  simp [Nat.testBit_land, show Nat.testBit 0xFFFFFFEF 4 = false from by decide]

theorem is_latest_set_latest_false (n : dbtuple) :
    (n.set_latest false).is_latest = false := by
  cases n
  simp [dbtuple.set_latest, dbtuple.withHdr, dbtuple.is_latest, dbtuple.hdr,
    IsLatest_clear_mask]

theorem freshBuf_take (r : List Nat) (sz cap : Nat) (h : sz ≤ r.length) :
    (freshBuf r sz cap).take sz = r.take sz := by
  rw [freshBuf, List.take_append_eq_append_take]
  simp [List.length_take, Nat.le_antisymm (Nat.min_le_left _ _)
    (Nat.le_min.mpr ⟨Nat.le_refl _, h⟩)]

theorem alloc_fields (version : Nat) (value : List Nat) (sz : Nat)
    (next : Option dbtuple) (set_latest : Bool) :
    (alloc version value sz next set_latest).hdr
        = (HDR_TYPE_MASK ||| (if set_latest then HDR_LATEST_MASK else 0)) ∧
    (alloc version value sz next set_latest).version = version ∧
    (alloc version value sz next set_latest).size = sz ∧
    (alloc version value sz next set_latest).alloc_size
        = alloc_block sz - sizeof_dbtuple - sizeof_ptr ∧
    (alloc version value sz next set_latest).buf
        = freshBuf value sz (alloc_block sz - sizeof_dbtuple - sizeof_ptr) ∧
    (alloc version value sz next set_latest).next = next := by
  simp [alloc, dbtuple.hdr, dbtuple.version, dbtuple.size, dbtuple.alloc_size,
    dbtuple.buf, dbtuple.next]

theorem is_latest_alloc (version : Nat) (value : List Nat) (sz : Nat)
    (next : Option dbtuple) (set_latest : Bool) :
    (alloc version value sz next set_latest).is_latest = set_latest := by
  rw [dbtuple.is_latest, (alloc_fields version value sz next set_latest).1]
  cases set_latest <;> decide

theorem is_big_type_alloc (version : Nat) (value : List Nat) (sz : Nat)
    (next : Option dbtuple) (set_latest : Bool) :
    (alloc version value sz next set_latest).is_big_type = true := by
  rw [dbtuple.is_big_type, (alloc_fields version value sz next set_latest).1]
  cases set_latest <;> decide

theorem get_next_alloc (version : Nat) (value : List Nat) (sz : Nat)
    (next : Option dbtuple) (set_latest : Bool) :
    (alloc version value sz next set_latest).get_next = next := by
  rw [dbtuple.get_next, if_pos]
  · exact (alloc_fields version value sz next set_latest).2.2.2.2.2
  · have := is_big_type_alloc version value sz next set_latest
    rw [dbtuple.is_big_type] at this
    exact this

/-! ### Claim theorems -/

/-- C1: for every locked, latest node, `write_record_at(txn, t, r, sz)`
follows the four-row decision table evaluated in order: in-place
overwrite returning `(false, none)`; capacity-overflow replacement
returning `(false, rep)` with `rep` a new latest big head whose `next`
is this node, this node no longer latest; the spill row returning
`(true, none)`; and the no-overwrite replacement row returning
`(true, rep)`; replacement is non-null exactly in the two replacement
rows. -/
theorem write_record_at_decision_table
    (co : Nat → Nat → Bool) (n : dbtuple) (t : Nat) (r : List Nat) (sz : Nat)
    (hlk : n.is_locked = true) (hlt : n.is_latest = true)
    (hsz65 : sz ≤ node_size_max) (hr : sz ≤ r.length) :
    (co n.version t = true → sz ≤ n.alloc_size →
       write_record_at co n t r sz =
         (dbtuple.mk n.hdr t sz n.alloc_size (memcpy n.buf r sz) n.next,
          false, none)) ∧
    (co n.version t = true → n.alloc_size < sz →
       write_record_at co n t r sz =
         (n.set_latest false, false,
          some (alloc t r sz (some (n.set_latest false)) true)) ∧
       (n.set_latest false).is_latest = false ∧
       (alloc t r sz (some (n.set_latest false)) true).is_latest = true ∧
       (alloc t r sz (some (n.set_latest false)) true).is_big_type = true ∧
       (alloc t r sz (some (n.set_latest false)) true).get_next
           = some (n.set_latest false) ∧
       (alloc t r sz (some (n.set_latest false)) true).version = t ∧
       (alloc t r sz (some (n.set_latest false)) true).size = sz ∧
       (alloc t r sz (some (n.set_latest false)) true).buf.take sz = r.take sz) ∧
    (co n.version t = false → IsBigType n.hdr = true → sz ≤ n.alloc_size →
       (write_record_at co n t r sz).2.1 = true ∧
       (write_record_at co n t r sz).2.2 = none) ∧
    (co n.version t = false → (IsBigType n.hdr = false ∨ n.alloc_size < sz) →
       write_record_at co n t r sz =
         (n.set_latest false, true,
          some (alloc t r sz (some (n.set_latest false)) true)) ∧
       (n.set_latest false).is_latest = false ∧
       (alloc t r sz (some (n.set_latest false)) true).is_latest = true ∧
       (alloc t r sz (some (n.set_latest false)) true).get_next
           = some (n.set_latest false) ∧
       (alloc t r sz (some (n.set_latest false)) true).buf.take sz = r.take sz) ∧
    ((write_record_at co n t r sz).2.2 ≠ none ↔
       ((co n.version t = true ∧ n.alloc_size < sz) ∨
        (co n.version t = false ∧
          (IsBigType n.hdr = false ∨ n.alloc_size < sz)))) := by
  refine ⟨?_, ?_, ?_, ?_, ?_⟩
  · intro h1 h2
    simp [write_record_at, h1, h2]
  · intro h1 h2
    have h2' : ¬ sz ≤ n.alloc_size := by omega
    refine ⟨by simp [write_record_at, h1, h2'], is_latest_set_latest_false n,
      is_latest_alloc _ _ _ _ _, is_big_type_alloc _ _ _ _ _,
      get_next_alloc _ _ _ _ _,
      (alloc_fields _ _ _ _ _).2.1, (alloc_fields _ _ _ _ _).2.2.1, ?_⟩
    rw [(alloc_fields _ _ _ _ _).2.2.2.2.1, freshBuf_take _ _ _ hr]
  · intro h1 h2 h3
    constructor <;> simp [write_record_at, h1, h2, h3]
  · intro h1 h2
    have hcond : ¬ (IsBigType n.hdr = true ∧ sz ≤ n.alloc_size) := by
      rcases h2 with h2 | h2
      · simp [h2]
      · intro hc
        omega
    refine ⟨by simp [write_record_at, h1, hcond], is_latest_set_latest_false n,
      is_latest_alloc _ _ _ _ _, get_next_alloc _ _ _ _ _, ?_⟩
    rw [(alloc_fields _ _ _ _ _).2.2.2.2.1, freshBuf_take _ _ _ hr]
  · by_cases h1 : co n.version t = true
    · by_cases h2 : sz ≤ n.alloc_size
      · simp [write_record_at, h1, h2]
      · simp [write_record_at, h1, h2]
        omega
    · rw [Bool.not_eq_true] at h1
      by_cases h2 : IsBigType n.hdr = true ∧ sz ≤ n.alloc_size
      · simp [write_record_at, h1, h2]
      · simp [write_record_at, h1, h2]
        rw [Classical.not_and_iff_or_not_not] at h2
        rcases h2 with h2 | h2
        · exact Or.inl (Bool.not_eq_true _ ▸ h2)
        · exact Or.inr (by omega)

/-- C1 witness: the in-place row evaluated on a concrete locked latest
node. -/
theorem write_record_at_decision_table_witness :
    (dbtuple.mk 19 5 2 4 [1, 2, 0, 0] none).is_locked = true ∧
    (dbtuple.mk 19 5 2 4 [1, 2, 0, 0] none).is_latest = true ∧
    1 ≤ node_size_max ∧ 1 ≤ ([9] : List Nat).length ∧
    ((fun _ _ => true : Nat → Nat → Bool) 5 7 = true → 1 ≤ 4 →
       write_record_at (fun _ _ => true) (dbtuple.mk 19 5 2 4 [1, 2, 0, 0] none)
           7 [9] 1 =
         (dbtuple.mk 19 7 1 4 [9, 2, 0, 0] none, false, none)) :=
  ⟨by decide, by decide, by decide, by decide, fun _ _ => by
    have h := write_record_at_decision_table (fun _ _ => true)
      (dbtuple.mk 19 5 2 4 [1, 2, 0, 0] none) 7 [9] 1
      (by decide) (by decide) (by decide) (by decide)
    rw [h.1 rfl (by decide)]
    rfl⟩

/-- C9: a logical delete (`sz = 0`) with overwrite permission always takes
the in-place branch on any locked latest node: it returns
`(spilled = false, replacement = none)` and leaves the node with
`size = 0`, `version = t` and its buffer bytes unchanged, never
allocating a replacement regardless of type or capacity. -/
theorem write_record_at_delete_in_place
    (co : Nat → Nat → Bool) (n : dbtuple) (t : Nat) (r : List Nat)
    (hlk : n.is_locked = true) (hlt : n.is_latest = true)
    (hco : co n.version t = true) :
    write_record_at co n t r 0 =
      (dbtuple.mk n.hdr t 0 n.alloc_size n.buf n.next, false, none) ∧
    (write_record_at co n t r 0).1.size = 0 ∧
    (write_record_at co n t r 0).1.version = t ∧
    (write_record_at co n t r 0).2.1 = false ∧
    (write_record_at co n t r 0).2.2 = none := by
  have h0 : (0 : Nat) ≤ n.alloc_size := Nat.zero_le _
  have hmain : write_record_at co n t r 0 =
      (dbtuple.mk n.hdr t 0 n.alloc_size n.buf n.next, false, none) := by
    simp [write_record_at, hco, h0, memcpy]
  refine ⟨hmain, ?_, ?_, ?_, ?_⟩ <;>
    rw [hmain] <;> simp [dbtuple.size, dbtuple.version]

/-- C9 witness: a concrete logical delete on a small locked latest node. -/
theorem write_record_at_delete_in_place_witness :
    (dbtuple.mk 17 5 2 4 [1, 2, 0, 0] none).is_locked = true ∧
    (dbtuple.mk 17 5 2 4 [1, 2, 0, 0] none).is_latest = true ∧
    (fun _ _ => true : Nat → Nat → Bool) 5 9 = true ∧
    write_record_at (fun _ _ => true) (dbtuple.mk 17 5 2 4 [1, 2, 0, 0] none)
        9 [] 0 =
      (dbtuple.mk 17 9 0 4 [1, 2, 0, 0] none, false, none) :=
  ⟨by decide, by decide, rfl,
    (write_record_at_delete_in_place (fun _ _ => true)
      (dbtuple.mk 17 5 2 4 [1, 2, 0, 0] none) 9 []
      (by decide) (by decide) rfl).1⟩


/-- C2: the spill path of `write_record_at`: with the lock held on a
latest big node, `can_overwrite = false` and `sz ≤ alloc_size`, a new
non-latest big node is allocated carrying this node's current payload
and version and inheriting its `next`; this node's `next` becomes the
spill node and it is overwritten in place with `t`, `sz` and the new
payload; the call returns `(true, none)`. Moreover the concrete S3
scenario: a big node of capacity 4 holding `version = 10, "aa"` is
locked, written with `t = 20, "bb"` under `can_overwrite = false`,
unlocked; then `stable_read 20 = (true, 20, "bb")`,
`stable_read 15 = (true, 10, "aa")` and `stable_read 5 = (true, 0, "")`. -/
theorem write_record_at_spill
    (co : Nat → Nat → Bool) (n : dbtuple) (t : Nat) (r : List Nat) (sz : Nat)
    (hlk : n.is_locked = true) (hlt : n.is_latest = true)
    (hbig : IsBigType n.hdr = true)
    (hco : co n.version t = false) (hsz : sz ≤ n.alloc_size)
    (hbuf : n.size ≤ n.buf.length) :
    (write_record_at co n t r sz =
       (dbtuple.mk n.hdr t sz n.alloc_size (memcpy n.buf r sz)
          (some (alloc n.version n.buf n.size n.next false)), true, none) ∧
     (alloc n.version n.buf n.size n.next false).version = n.version ∧
     (alloc n.version n.buf n.size n.next false).size = n.size ∧
     (alloc n.version n.buf n.size n.next false).buf.take n.size
         = n.buf.take n.size ∧
     (alloc n.version n.buf n.size n.next false).next = n.next ∧
     (alloc n.version n.buf n.size n.next false).is_latest = false ∧
     (alloc n.version n.buf n.size n.next false).is_big_type = true) ∧
    (let n0 := (dbtuple.mk (HDR_TYPE_MASK ||| HDR_LATEST_MASK)
                 10 2 4 [0x61, 0x61, 0, 0] none).lock
     let w := write_record_at (fun _ _ => false) n0 20 [0x62, 0x62] 2
     w.2.1 = true ∧ w.2.2 = none ∧
     stable_read w.1.unlock 20 1024 = some (20, [0x62, 0x62]) ∧
     stable_read w.1.unlock 15 1024 = some (10, [0x61, 0x61]) ∧
     stable_read w.1.unlock 5 1024 = some (0, [])) := by
  constructor
  · refine ⟨by simp [write_record_at, hco, hbig, hsz], (alloc_fields _ _ _ _ _).2.1,
      (alloc_fields _ _ _ _ _).2.2.1, ?_, (alloc_fields _ _ _ _ _).2.2.2.2.2,
      is_latest_alloc _ _ _ _ _, is_big_type_alloc _ _ _ _ _⟩
    rw [(alloc_fields _ _ _ _ _).2.2.2.2.1, freshBuf_take _ _ _ hbuf]
  · exact ⟨rfl, rfl, rfl, rfl, rfl⟩

/-- C2 witness: the spill path evaluated at the S3 node. -/
theorem write_record_at_spill_witness :
    ((dbtuple.mk 19 10 2 4 [0x61, 0x61, 0, 0] none).is_locked = true ∧
     (dbtuple.mk 19 10 2 4 [0x61, 0x61, 0, 0] none).is_latest = true ∧
     IsBigType (dbtuple.mk 19 10 2 4 [0x61, 0x61, 0, 0] none).hdr = true) ∧
    write_record_at (fun _ _ => false)
        (dbtuple.mk 19 10 2 4 [0x61, 0x61, 0, 0] none) 20 [0x62, 0x62] 2 =
      (dbtuple.mk 19 20 2 4 [0x62, 0x62, 0, 0]
         (some (alloc 10 [0x61, 0x61, 0, 0] 2 none false)), true, none) :=
  ⟨⟨by decide, by decide, by decide⟩, by
    have h := (write_record_at_spill (fun _ _ => false)
      (dbtuple.mk 19 10 2 4 [0x61, 0x61, 0, 0] none) 20 [0x62, 0x62] 2
      (by decide) (by decide) (by decide) rfl (by decide) (by decide)).1.1
    rw [h]
    rfl⟩

/-- Helper: the reader walk with `require_latest = false` never reports
failure. -/
theorem record_at_no_require_ne_none : ∀ (n : dbtuple) (t ml : Nat),
    record_at n t ml false ≠ none
  | .mk h v s a b none, t, ml => by
    by_cases hv : v ≤ t <;> simp [record_at, hv]
  | .mk h v s a b (some p), t, ml => by
    by_cases hv : v ≤ t
    · simp [record_at, hv]
    · cases hb : IsBigType h
      · simp [record_at, hv, hb]
      · simpa [record_at, hv, hb] using record_at_no_require_ne_none p t ml

/-- Helper: a chain whose versions all exceed the reader TID yields the
synthetic deleted-at-`MIN_TID` result, whatever the latest requirement. -/
theorem record_at_all_behind : ∀ (n : dbtuple) (t ml : Nat) (rl : Bool),
    (∀ m ∈ chainNodes n, t < m.version) →
    record_at n t ml rl = some (MIN_TID, [])
  | .mk h v s a b none, t, ml, rl, hall => by
    have hv : t < v := by
      have := hall (dbtuple.mk h v s a b none) (by simp [chainNodes])
      simpa [dbtuple.version] using this
    have hnv : ¬ v ≤ t := by omega
    simp [record_at, hnv]
  | .mk h v s a b (some p), t, ml, rl, hall => by
    have hv : t < v := by
      have := hall (dbtuple.mk h v s a b (some p)) (by simp [chainNodes])
      simpa [dbtuple.version] using this
    have hnv : ¬ v ≤ t := by omega
    cases hb : IsBigType h
    · simp [record_at, hnv, hb]
    · have hall' : ∀ m ∈ chainNodes p, t < m.version := by
        intro m hm
        apply hall
        simp [chainNodes, hb]
        exact Or.inr hm
      simp [record_at, hnv, hb, record_at_all_behind p t ml false hall']

/-- C3: on a chain none of whose versions satisfies the reader TID
(`version > t` everywhere), `stable_read` walks to the null tail and
returns success with `start_t = MIN_TID = 0` and the empty payload
rather than reporting failure. -/
theorem stable_read_all_behind (n : dbtuple) (t ml : Nat)
    (h : ∀ m ∈ chainNodes n, t < m.version) :
    stable_read n t ml = some (MIN_TID, []) :=
  record_at_all_behind n t ml true h

/-- C3 witness: a two-node chain with versions 9 and 7, read at TID 3. -/
theorem stable_read_all_behind_witness :
    (∀ m ∈ chainNodes (dbtuple.mk 18 9 1 4 [5, 0, 0, 0]
        (some (dbtuple.mk 2 7 1 4 [6, 0, 0, 0] none))), 3 < m.version) ∧
    stable_read (dbtuple.mk 18 9 1 4 [5, 0, 0, 0]
        (some (dbtuple.mk 2 7 1 4 [6, 0, 0, 0] none))) 3 64
      = some (MIN_TID, []) :=
  ⟨by decide, stable_read_all_behind _ 3 64 (by decide)⟩

/-- C5: `stable_read` reports failure exactly when its entry node is no
longer latest but its version satisfies the reader TID (`version ≤ t`);
in particular a stale head with a satisfying version makes the head
return false without consulting the chain, and no other input makes
`stable_read` fail. -/
theorem stable_read_none_iff (n : dbtuple) (t ml : Nat) :
    stable_read n t ml = none ↔ (IsLatest n.hdr = false ∧ n.version ≤ t) := by
  cases n with
  | mk h v s a b nx =>
    cases nx with
    | none =>
      rw [stable_read]
      by_cases hv : v ≤ t
      · cases hl : IsLatest h
        · simp [record_at, hv, hl, dbtuple.hdr, dbtuple.version]
        · simp [record_at, hv, hl, dbtuple.hdr, dbtuple.version]
      · simp [record_at, hv, dbtuple.hdr, dbtuple.version]
    | some p =>
      rw [stable_read]
      by_cases hv : v ≤ t
      · cases hl : IsLatest h
        · simp [record_at, hv, hl, dbtuple.hdr, dbtuple.version]
        · simp [record_at, hv, hl, dbtuple.hdr, dbtuple.version]
      · cases hb : IsBigType h
        · simp [record_at, hv, hb, dbtuple.hdr, dbtuple.version]
        · simp [record_at, hv, hb, dbtuple.hdr, dbtuple.version,
            record_at_no_require_ne_none p t ml]


/-- C6: `alloc_first(big_type, cap)` yields a node whose header has
exactly the latest flag set (locked, deleting and enqueued clear, type
bit iff big, counter 0), `version = MIN_TID = 0`, `size = 0`, null
`next`; and a subsequent `stable_read` at any reader TID succeeds with
`start_tid = 0` and the empty payload. -/
theorem alloc_first_fresh (big : Bool) (cap t ml : Nat)
    (hcap : cap ≤ node_size_max) :
    (alloc_first big cap).hdr
        = ((if big then HDR_TYPE_MASK else 0) ||| HDR_LATEST_MASK) ∧
    (alloc_first big cap).is_locked = false ∧
    (alloc_first big cap).is_deleting = false ∧
    (alloc_first big cap).is_enqueued = false ∧
    (alloc_first big cap).is_latest = true ∧
    (alloc_first big cap).is_big_type = big ∧
    Version (alloc_first big cap).hdr = 0 ∧
    (alloc_first big cap).version = MIN_TID ∧
    (alloc_first big cap).size = 0 ∧
    (alloc_first big cap).next = none ∧
    stable_read (alloc_first big cap) t ml = some (MIN_TID, []) := by
  have hhdr : (alloc_first big cap).hdr
      = ((if big then HDR_TYPE_MASK else 0) ||| HDR_LATEST_MASK) := by
    cases big <;> simp [alloc_first, dbtuple.hdr]
  refine ⟨hhdr, ?_, ?_, ?_, ?_, ?_, ?_, ?_, ?_, ?_, ?_⟩
  · rw [dbtuple.is_locked, hhdr]
    cases big <;> decide
  · rw [dbtuple.is_deleting, hhdr]
    cases big <;> decide
  · rw [dbtuple.is_enqueued, hhdr]
    cases big <;> decide
  · rw [dbtuple.is_latest, hhdr]
    cases big <;> decide
  · rw [dbtuple.is_big_type, hhdr]
    cases big <;> decide
  · rw [hhdr]
    cases big <;> decide
  · cases big <;> simp [alloc_first, dbtuple.version]
  · cases big <;> simp [alloc_first, dbtuple.size]
  · cases big <;> simp [alloc_first, dbtuple.next]
  · cases big <;>
      simp [stable_read, record_at, alloc_first, alloc_first_block, MIN_TID,
        Nat.zero_le, show IsLatest (HDR_TYPE_MASK ||| HDR_LATEST_MASK) = true
          from by decide,
        show IsLatest ((0 : Nat) ||| HDR_LATEST_MASK) = true from by decide,
        show IsLatest HDR_LATEST_MASK = true from by decide]

/-- C6 witness: the S1 scenario, `alloc_first(big = true, cap = 64)` read
at TID 100. -/
theorem alloc_first_fresh_witness :
    64 ≤ node_size_max ∧
    stable_read (alloc_first true 64) 100 1024 = some (MIN_TID, []) :=
  ⟨by decide, (alloc_first_fresh true 64 100 1024 (by decide)).2.2.2.2.2.2.2.2.2.2⟩

/-- C7: `unlock` on a locked header stores the old header with the
27-bit counter (bits 5..31) incremented by one modulo `2 ^ 27`, the lock
bit cleared, and the type, deleting, enqueued and latest bits unchanged;
consequently over any sequence of lock/unlock pairs the counter grows by
exactly one per unlock (modulo the wrap). -/
theorem unlock_counter_increment :
    (∀ v : Nat, IsLocked v = true →
       Version (unlockWord v) = (Version v + 1) % 2 ^ 27 ∧
       IsLocked (unlockWord v) = false ∧
       IsBigType (unlockWord v) = IsBigType v ∧
       IsDeleting (unlockWord v) = IsDeleting v ∧
       IsEnqueued (unlockWord v) = IsEnqueued v ∧
       IsLatest (unlockWord v) = IsLatest v) ∧
    (∀ (v k : Nat),
       Version ((fun w => unlockWord (lockWord w))^[k] v)
         = (Version v + k) % 2 ^ 27) := by
  constructor
  · intro v _
    refine ⟨Version_unlockWord v, ?_, ?_, ?_, ?_, ?_⟩
    · rw [IsLocked_testBit, testBit_unlockWord_zero]
    · rw [IsBigType_testBit, IsBigType_testBit,
        testBit_unlockWord_lo v 1 (by norm_num) (by norm_num)]
    · rw [IsDeleting_testBit, IsDeleting_testBit,
        testBit_unlockWord_lo v 2 (by norm_num) (by norm_num)]
    · rw [IsEnqueued_testBit, IsEnqueued_testBit,
        testBit_unlockWord_lo v 3 (by norm_num) (by norm_num)]
    · rw [IsLatest_testBit, IsLatest_testBit,
        testBit_unlockWord_lo v 4 (by norm_num) (by norm_num)]
  · intro v k
    induction k generalizing v with
    | zero =>
      rw [Function.iterate_zero_apply, Nat.add_zero,
        Nat.mod_eq_of_lt (Version_lt v)]
    | succ k ih =>
      rw [Function.iterate_succ_apply]
      rw [ih (unlockWord (lockWord v)), Version_unlockWord, Version_lockWord]
      omega

/-- C7 witness: the counter transition at the concrete locked header 19. -/
theorem unlock_counter_increment_witness :
    IsLocked 19 = true ∧ Version (unlockWord 19) = (Version 19 + 1) % 2 ^ 27 :=
  ⟨by decide, (unlock_counter_increment.1 19 (by decide)).1⟩

/-- Helper: arithmetic bounds on the `alloc_first` block size. -/
theorem alloc_first_block_bounds (big : Bool) (req : Nat)
    (h : req ≤ node_size_max) :
    req ≤ alloc_first_block big req - sizeof_dbtuple
            - (if big then sizeof_ptr else 0) ∧
    alloc_first_block big req - sizeof_dbtuple - (if big then sizeof_ptr else 0)
      ≤ node_size_max := by
  cases big <;>
    · simp only [alloc_first_block, round_up, sizeof_dbtuple, sizeof_ptr,
        node_size_max, if_true, if_false] at h ⊢
      omega

/-- Helper: arithmetic bounds on the `alloc` block size. -/
theorem alloc_block_bounds (sz : Nat) (h : sz ≤ node_size_max) :
    sz ≤ alloc_block sz - sizeof_dbtuple - sizeof_ptr ∧
    alloc_block sz - sizeof_dbtuple - sizeof_ptr ≤ node_size_max := by
  simp only [alloc_block, round_up, sizeof_dbtuple, sizeof_ptr,
    node_size_max] at h ⊢
  omega

/-- C8: for every requested capacity (`alloc_first`) or payload size
(`alloc`) at most 65535, the allocated block is the minimum of the
16-byte-rounded prefix-plus-request and the hard ceiling
`65535 + prefix (+ pointer slot)`; the node's `alloc_size` is the whole
block minus the prefix, so `requested ≤ alloc_size ≤ 65535` and
`size ≤ alloc_size` hold in all cases, the clamped one included. -/
theorem allocation_size_class_bounds :
    (∀ (big : Bool) (req : Nat), req ≤ node_size_max →
       alloc_first_block big req =
         min (round_up (sizeof_dbtuple + (if big then sizeof_ptr else 0) + req))
             (node_size_max + sizeof_dbtuple + (if big then sizeof_ptr else 0)) ∧
       (alloc_first big req).alloc_size =
         alloc_first_block big req - sizeof_dbtuple
           - (if big then sizeof_ptr else 0) ∧
       req ≤ (alloc_first big req).alloc_size ∧
       (alloc_first big req).alloc_size ≤ node_size_max ∧
       (alloc_first big req).size ≤ (alloc_first big req).alloc_size) ∧
    (∀ (ver : Nat) (val : List Nat) (sz : Nat) (nx : Option dbtuple) (lat : Bool),
       sz ≤ node_size_max →
       alloc_block sz =
         min (round_up (sizeof_dbtuple + sizeof_ptr + sz))
             (node_size_max + sizeof_dbtuple + sizeof_ptr) ∧
       (alloc ver val sz nx lat).alloc_size
           = alloc_block sz - sizeof_dbtuple - sizeof_ptr ∧
       sz ≤ (alloc ver val sz nx lat).alloc_size ∧
       (alloc ver val sz nx lat).alloc_size ≤ node_size_max ∧
       (alloc ver val sz nx lat).size ≤ (alloc ver val sz nx lat).alloc_size) := by
  constructor
  · intro big req h
    have hcap : (alloc_first big req).alloc_size
        = alloc_first_block big req - sizeof_dbtuple
            - (if big then sizeof_ptr else 0) := by
      cases big <;> rfl
    have hb := alloc_first_block_bounds big req h
    refine ⟨rfl, hcap, ?_, ?_, ?_⟩
    · rw [hcap]
      exact hb.1
    · rw [hcap]
      exact hb.2
    · have hsz : (alloc_first big req).size = 0 := by cases big <;> rfl
      rw [hsz]
      exact Nat.zero_le _
  · intro ver val sz nx lat h
    have hcap : (alloc ver val sz nx lat).alloc_size
        = alloc_block sz - sizeof_dbtuple - sizeof_ptr :=
      (alloc_fields ver val sz nx lat).2.2.2.1
    have hb := alloc_block_bounds sz h
    refine ⟨rfl, hcap, ?_, ?_, ?_⟩
    · rw [hcap]
      exact hb.1
    · rw [hcap]
      exact hb.2
    · rw [(alloc_fields ver val sz nx lat).2.2.1, hcap]
      exact hb.1

/-- C8 witness: the clamped case `alloc_first(big = true, 65535)`, whose
rounded size exceeds the ceiling. -/
theorem allocation_size_class_bounds_witness :
    65535 ≤ node_size_max ∧
    65535 ≤ (alloc_first true 65535).alloc_size ∧
    (alloc_first true 65535).alloc_size ≤ node_size_max :=
  ⟨by decide, (allocation_size_class_bounds.1 true 65535 (by decide)).2.2.1,
    (allocation_size_class_bounds.1 true 65535 (by decide)).2.2.2.1⟩


/-- Helper: the reader walk on a node whose version satisfies the TID. -/
theorem record_at_found (h v s a : Nat) (b : List Nat) (nx : Option dbtuple)
    (t ml : Nat) (rl : Bool) (hv : v ≤ t) :
    record_at (dbtuple.mk h v s a b nx) t ml rl =
      if rl && !(IsLatest h) then none else some (v, b.take (min s ml)) := by
  cases nx <;> simp [record_at, hv]

/-- Helper: the reader walk past a non-satisfying node with a non-null
next pointer. -/
theorem record_at_notfound_cons (h v s a : Nat) (b : List Nat) (p : dbtuple)
    (t ml : Nat) (rl : Bool) (hv : ¬ v ≤ t) :
    record_at (dbtuple.mk h v s a b (some p)) t ml rl =
      if IsBigType h then record_at p t ml false else some (MIN_TID, []) := by
  simp [record_at, hv]

/-- Helper: every successful read result is either the synthetic tail
result or the payload of some chain node truncated at `ml`. -/
theorem record_at_found_shape : ∀ (n : dbtuple) (t ml : Nat) (rl : Bool)
    (st : Nat) (r : List Nat),
    (∀ m ∈ chainNodes n, m.size ≤ m.alloc_size ∧ m.buf.length = m.alloc_size) →
    record_at n t ml rl = some (st, r) →
    (st = MIN_TID ∧ r = []) ∨
    ∃ m ∈ chainNodes n, st = m.version ∧ r.length = min m.size ml
  | .mk h v s a b none, t, ml, rl, st, r, hwf, heq => by
    by_cases hv : v ≤ t
    · rw [record_at_found h v s a b none t ml rl hv] at heq
      split at heq
      · simp at heq
      · simp only [Option.some.injEq, Prod.mk.injEq] at heq
        obtain ⟨h1, h2⟩ := heq
        right
        refine ⟨dbtuple.mk h v s a b none, by simp [chainNodes], by
          rw [← h1, dbtuple.version], ?_⟩
        have hw := hwf (dbtuple.mk h v s a b none) (by simp [chainNodes])
        rw [dbtuple.size, dbtuple.alloc_size, dbtuple.buf] at hw
        rw [← h2, List.length_take, dbtuple.size]
        omega
    · left
      simp [record_at, hv] at heq
      exact ⟨heq.1.symm, heq.2⟩
  | .mk h v s a b (some p), t, ml, rl, st, r, hwf, heq => by
    by_cases hv : v ≤ t
    · rw [record_at_found h v s a b (some p) t ml rl hv] at heq
      split at heq
      · simp at heq
      · simp only [Option.some.injEq, Prod.mk.injEq] at heq
        obtain ⟨h1, h2⟩ := heq
        right
        refine ⟨dbtuple.mk h v s a b (some p), by simp [chainNodes], by
          rw [← h1, dbtuple.version], ?_⟩
        have hw := hwf (dbtuple.mk h v s a b (some p)) (by simp [chainNodes])
        rw [dbtuple.size, dbtuple.alloc_size, dbtuple.buf] at hw
        rw [← h2, List.length_take, dbtuple.size]
        omega
    · rw [record_at_notfound_cons h v s a b p t ml rl hv] at heq
      cases hb : IsBigType h
      · rw [hb] at heq
        simp only [Bool.false_eq_true, if_false, Option.some.injEq,
          Prod.mk.injEq] at heq
        exact Or.inl ⟨heq.1.symm, heq.2.symm⟩
      · rw [hb] at heq
        simp only [if_true] at heq
        have hwf' : ∀ m ∈ chainNodes p,
            m.size ≤ m.alloc_size ∧ m.buf.length = m.alloc_size := by
          intro m hm
          apply hwf
          simp [chainNodes, hb]
          exact Or.inr hm
        rcases record_at_found_shape p t ml false st r hwf' heq with
          hleft | ⟨m, hm, h1, h2⟩
        · exact Or.inl hleft
        · refine Or.inr ⟨m, ?_, h1, h2⟩
          simp [chainNodes, hb]
          exact Or.inr hm

/-- C10: under the asserted precondition `max_len > 0`, every successful
`stable_read` returns a payload of length `min(size, max_len)` of the
node that satisfied the read — never more than `max_len` and never more
than that node's `size` — and the walked-off-the-tail result has payload
length 0. -/
theorem stable_read_payload_bounded (n : dbtuple) (t ml st : Nat)
    (r : List Nat) (hwf : wfChain n) (hml : stable_read_pre ml)
    (h : stable_read n t ml = some (st, r)) :
    r.length ≤ ml ∧
    ((st = MIN_TID ∧ r.length = 0) ∨
     ∃ m ∈ chainNodes n, st = m.version ∧ r.length = min m.size ml ∧
       r.length ≤ m.size) := by
  rcases record_at_found_shape n t ml true st r hwf h with
    ⟨h1, h2⟩ | ⟨m, hm, h1, h2⟩
  · exact ⟨by simp [h2], Or.inl ⟨h1, by simp [h2]⟩⟩
  · refine ⟨?_, Or.inr ⟨m, hm, h1, h2, ?_⟩⟩
    · rw [h2]
      exact Nat.min_le_right _ _
    · rw [h2]
      exact Nat.min_le_left _ _

/-- C10 witness: a read truncated by `max_len = 2` on a node of size 3. -/
theorem stable_read_payload_bounded_witness :
    wfChain (dbtuple.mk 18 5 3 4 [1, 2, 3, 0] none) ∧
    stable_read_pre 2 ∧
    stable_read (dbtuple.mk 18 5 3 4 [1, 2, 3, 0] none) 9 2
      = some (5, [1, 2]) ∧
    ([1, 2] : List Nat).length ≤ 2 :=
  ⟨by unfold wfChain; decide, by norm_num [stable_read_pre], by decide,
    (stable_read_payload_bounded (dbtuple.mk 18 5 3 4 [1, 2, 3, 0] none)
      9 2 5 [1, 2] (by unfold wfChain; decide)
      (by norm_num [stable_read_pre]) (by decide)).1⟩

end Silo
